import Mathlib

set_option maxRecDepth 100000

/-!
Verification of the aiops-bundler aiOp pipeline.

This file gives a shallow embedding, in Lean 4, of the parts of the
aiops-bundler repository that the claims C1..C10 are about:

* the `AiOperation` data model and its derived getters (the `pkg/aiop`
  package is not part of the provided sources, so those definitions are
  modelled from the specification, §3 and §4.1);
* the static pre-verification-gas model (`pkg/gas/overhead.go`);
* the batch gas-cap handler (`pkg/modules/batch/gaslimit.go`);
* the reputation `CheckStatus` ingress handler (`pkg/modules/entities`);
* the searcher and relay `SendAiOperation` batch handlers;
* the trace-based storage-slot validator
  (`pkg/aimiddleware/simulation/storageslots.go`).

Go `big.Int` values that are always non-negative in the embedded code are
modelled as `Nat`; where a subtraction occurs (`MaintainGasLimit`) the
embedding uses `Int`, matching `big.Int` semantics on the values involved.
The `float64` arithmetic in `overhead.go` only ever produces integers that
are far below 2^53 (sums of the constants 4/16/25/21000/22874 over byte
strings, and a division by the power of two 32, which is exact in binary
floating point), so it is modelled exactly over `Nat`.
-/

namespace AiopsBundler

/-- Bytes are modelled as `Nat` (values `0..255`; only zero vs non-zero is
ever observed by the embedded code). -/
abbrev Byte := Nat

/-- Ethereum addresses, modelled as natural numbers (20-byte big-endian
value). The zero address (`common.HexToAddress("0x")` in Go) is `0`. -/
abbrev Address := Nat

/-- The AiOperation record, spec §3: the canonical pseudo-transaction.
Field names follow the Go struct in the (absent) `pkg/aiop` package. -/
structure AiOperation where
  sender : Address
  nonce : Nat
  initCode : List Byte
  callData : List Byte
  callGasLimit : Nat
  verificationGasLimit : Nat
  preVerificationGas : Nat
  maxFeePerGas : Nat
  maxPriorityFeePerGas : Nat
  paymasterAndData : List Byte
  signature : List Byte
deriving DecidableEq, Repr

/-- Big-endian interpretation of a byte string as a natural number (used to
read the factory / paymaster address out of the first 20 bytes). -/
def bytesToNat (bs : List Byte) : Nat :=
  bs.foldl (fun acc b => acc * 256 + b) 0

/-- Modelled from the spec: `pkg/aiop` is absent from the sources. Spec §3:
`factory = initCode[0:20] if len ≥ 20 else zero`. -/
def AiOperation.GetFactory (op : AiOperation) : Address :=
  if 20 ≤ op.initCode.length then bytesToNat (op.initCode.take 20) else 0

/-- Modelled from the spec: `pkg/aiop` is absent from the sources. Spec §3:
`paymaster = paymasterAndData[0:20] if len ≥ 20 else zero`. -/
def AiOperation.GetPaymaster (op : AiOperation) : Address :=
  if 20 ≤ op.paymasterAndData.length then bytesToNat (op.paymasterAndData.take 20) else 0

/-- Modelled from the spec: `pkg/aiop` is absent from the sources. Spec §3:
`maxGasAvailable = callGasLimit + verificationGasLimit × (paymaster? 3 : 1)
+ preVerificationGas`. -/
def AiOperation.GetMaxGasAvailable (op : AiOperation) : Nat :=
  op.callGasLimit +
    op.verificationGasLimit * (if op.GetPaymaster ≠ 0 then 3 else 1) +
    op.preVerificationGas

/-- 32-byte big-endian encoding of a `uint256` (an ABI-padded word). -/
def beBytes32 (n : Nat) : List Byte :=
  (List.range 32).map (fun i => n / 256 ^ (31 - i) % 256)

/-- Right-pad a byte string with zeros to a multiple of 32 bytes
(ABI padding for dynamic `bytes` contents). -/
def padTo32 (bs : List Byte) : List Byte :=
  bs ++ List.replicate ((bs.length + 31) / 32 * 32 - bs.length) 0

/-- Modelled from the spec: `pkg/aiop` is absent from the sources. Spec §4.1:
"canonical packing concatenates ABI-padded fields in the fixed order
(sender, nonce, initCode, callData, callGasLimit, verificationGasLimit,
preVerificationGas, maxFeePerGas, maxPriorityFeePerGas, paymasterAndData,
signature)". -/
def AiOperation.Pack (op : AiOperation) : List Byte :=
  beBytes32 op.sender ++ beBytes32 op.nonce ++
    padTo32 op.initCode ++ padTo32 op.callData ++
    beBytes32 op.callGasLimit ++ beBytes32 op.verificationGasLimit ++
    beBytes32 op.preVerificationGas ++ beBytes32 op.maxFeePerGas ++
    beBytes32 op.maxPriorityFeePerGas ++
    padTo32 op.paymasterAndData ++ padTo32 op.signature

/-- `gas.Overhead` (pkg/gas/overhead.go): pre-defined parameters for gas
limit calculations. All numeric fields hold exact small integers in the Go
code (stored in `float64` / `big.Int`), modelled as `Nat`. The `calcPVGFunc`
field is fixed to the default no-op function (`calcPVGFuncNoop`, which
returns `nil` so that the static value is used). -/
structure Overhead where
  intrinsicFixed : Nat
  perAiOpFixed : Nat
  perAiOpMultiplier : Nat
  zeroByte : Nat
  nonZeroByte : Nat
  minBundleSize : Nat
  warmStorageRead : Nat
  callWithValue : Nat
  callOpcode : Nat
  nonZeroValueStipend : Nat
  sanitizedPVG : Nat
  sanitizedVGL : Nat
  sanitizedCGL : Nat
deriving Repr

/-- `gas.NewDefaultOverhead` (pkg/gas/overhead.go): parameters defined by
the Ethereum protocol. -/
def NewDefaultOverhead : Overhead :=
  { intrinsicFixed := 21000
    perAiOpFixed := 22874
    perAiOpMultiplier := 25
    zeroByte := 4
    nonZeroByte := 16
    minBundleSize := 1
    warmStorageRead := 100
    callWithValue := 9000
    callOpcode := 700
    nonZeroValueStipend := 2300
    sanitizedPVG := 100000
    sanitizedVGL := 1000000
    sanitizedCGL := 1000000 }

/-- `Overhead.CalcCallDataCost` (pkg/gas/overhead.go): cost of serializing
the packed aiOp, 4 gas per zero byte and 16 per non-zero byte. -/
def Overhead.CalcCallDataCost (ov : Overhead) (op : AiOperation) : Nat :=
  op.Pack.foldl (fun cost b => if b = 0 then cost + ov.zeroByte else cost + ov.nonZeroByte) 0

/-- `Overhead.CalcPerAiOpCost` (pkg/gas/overhead.go):
`perAiOpMultiplier * lenInWord + perAiOpFixed`, where
`lenInWord = ⌊(len(Pack) + 31) / 32⌋` (a float64 division by the power of
two 32, hence exact, followed by `math.Floor`). -/
def Overhead.CalcPerAiOpCost (ov : Overhead) (op : AiOperation) : Nat :=
  ov.perAiOpMultiplier * ((op.Pack.length + 31) / 32) + ov.perAiOpFixed

/-- The field sanitization step of `Overhead.CalcPreVerificationGas`
(pkg/gas/overhead.go lines 99-110): preVerificationGas,
verificationGasLimit and callGasLimit are replaced by fixed sanitized
values and the signature by `0x01` repeated to its original length. The
Go code does this through a lossless `ToMap`/`aiop.New` JSON round trip
(spec §4.1/§6.2). -/
def Overhead.sanitize (ov : Overhead) (op : AiOperation) : AiOperation :=
  { op with
    preVerificationGas := ov.sanitizedPVG
    verificationGasLimit := ov.sanitizedVGL
    callGasLimit := ov.sanitizedCGL
    signature := List.replicate op.signature.length 1 }

/-- `Overhead.CalcPreVerificationGas` (pkg/gas/overhead.go) with the
default no-op `calcPVGFunc` (which returns `nil`, so the static value is
returned): `intrinsicFixed / minBundleSize + CalcCallDataCost(tmp) +
CalcPerAiOpCost(tmp)` on the sanitized op. All summands are exact
integers, so `math.Round` is the identity. -/
def Overhead.CalcPreVerificationGas (ov : Overhead) (op : AiOperation) : Nat :=
  let tmp := ov.sanitize op
  ov.intrinsicFixed / ov.minBundleSize + ov.CalcCallDataCost tmp + ov.CalcPerAiOpCost tmp

/-- The static PVG of spec §4.7: the default overhead with the no-op PVG
function. -/
def staticPVG (op : AiOperation) : Nat :=
  NewDefaultOverhead.CalcPreVerificationGas op

/-- The per-op contribution accumulated by `MaintainGasLimit`
(pkg/modules/batch/gaslimit.go lines 25-26):
`mga = (GetMaxGasAvailable(op) - op.PreVerificationGas) + static`. -/
def batchGasContribution (op : AiOperation) : Int :=
  ((op.GetMaxGasAvailable : Int) - (op.preVerificationGas : Int)) + (staticPVG op : Int)

/-- The loop body of `MaintainGasLimit` (pkg/modules/batch/gaslimit.go
lines 20-33): walk the batch, accumulate each op's contribution into
`sum`, and break (returning the ops kept so far) as soon as
`sum ≥ maxBatchGasLimit`. -/
def MaintainGasLimitGo (maxBatchGasLimit : Int) : List AiOperation → Int → List AiOperation
  | [], _ => []
  | op :: rest, sum =>
    let mga := batchGasContribution op
    let sum' := sum + mga
    if maxBatchGasLimit ≤ sum' then []
    else op :: MaintainGasLimitGo maxBatchGasLimit rest sum'

/-- `batch.MaintainGasLimit` (pkg/modules/batch/gaslimit.go): the batch
handler replaces `ctx.Batch` with the kept prefix. -/
def MaintainGasLimit (maxBatchGasLimit : Int) (batch : List AiOperation) : List AiOperation :=
  MaintainGasLimitGo maxBatchGasLimit batch 0

/-- Sum of the batch-gas contributions of a list of ops. -/
def sumContrib (l : List AiOperation) : Int :=
  (l.map batchGasContribution).sum

/-! ## Reputation engine (pkg/modules/entities) -/

/-- `entities.ReputationConstants` (fields and defaults as constructed by
`config.NewReputationConstantsFromEnv`). -/
structure ReputationConstants where
  MinUnstakeDelay : Nat
  MinStakeValue : Nat
  SameSenderMempoolCount : Nat
  SameUnstakedEntityMempoolCount : Nat
  ThrottledEntityMempoolCount : Nat
  ThrottledEntityLiveBlocks : Nat
  ThrottledEntityBundleCount : Nat
  MinInclusionRateDenominator : Nat
  ThrottlingSlack : Nat
  BanSlack : Nat
deriving Repr

/-- The default reputation constants set by
`config.NewReputationConstantsFromEnv`. -/
def defaultReputationConstants : ReputationConstants :=
  { MinUnstakeDelay := 86400
    MinStakeValue := 2000000000000000
    SameSenderMempoolCount := 10
    SameUnstakedEntityMempoolCount := 11
    ThrottledEntityMempoolCount := 4
    ThrottledEntityLiveBlocks := 10
    ThrottledEntityBundleCount := 10
    MinInclusionRateDenominator := 10
    ThrottlingSlack := 10
    BanSlack := 50 }

/-- The derived entity status (spec §4.3). -/
inductive EntityStatus where
  | ok
  | throttled
  | banned
deriving DecidableEq, Repr

/-- Modelled from the spec: the `getStatus` helper of the entities package
is absent from the sources. Spec §4.3: with
`min = seen / MinInclusionRateDenominator`, the status is banned when
`included + BanSlack < min`, throttled when
`included + ThrottlingSlack < min`, and ok otherwise. -/
def getStatus (seen included : Nat) (c : ReputationConstants) : EntityStatus :=
  let minInclusionRate := seen / c.MinInclusionRateDenominator
  if included + c.BanSlack < minInclusionRate then .banned
  else if included + c.ThrottlingSlack < minInclusionRate then .throttled
  else .ok

/-- A reputation store snapshot: per address, the `(opsSeen, opsIncluded)`
counters (the badger transaction is abstracted into a pure lookup). -/
abbrev ReputationStore := Address → Nat × Nat

/-- Status of an address in a reputation store. -/
def statusOf (rep : ReputationStore) (addr : Address) (c : ReputationConstants) : EntityStatus :=
  getStatus (rep addr).1 (rep addr).2 c

/-- Errors returned by the ingress pipeline, mirroring
`errors.NewRPCError(code, message, data)`. -/
structure RPCError where
  code : Int
  message : String
deriving DecidableEq, Repr

/-- Modelled from the spec: the `pkg/errors` package is absent from the
sources. Spec §6.1: `-32502` is the banned/throttled error code. -/
def BANNED_OR_THROTTLED_ENTITY : Int := -32502

/-- `modules.AiOpHandlerCtx`: the ingress context, with the mempool
accessors `GetPendingSenderOps` / `GetPendingFactoryOps` /
`GetPendingPaymasterOps` abstracted into snapshot fields (the `pkg/modules`
package is absent from the sources; spec §4.4). -/
structure AiOpHandlerCtx where
  AiOp : AiOperation
  pendingSenderOps : List AiOperation
  pendingFactoryOps : List AiOperation
  pendingPaymasterOps : List AiOperation

/-- One entity check inside `Reputation.CheckStatus` (pkg/modules/entities,
lines 38-52 for the sender, 56-70 for the factory, 75-89 for the
paymaster): banned rejects outright; throttled rejects when the entity's
pending-op count is exactly equal (`==` in Go) to
`ThrottledEntityMempoolCount`. -/
def checkEntityStatus (rep : ReputationStore) (c : ReputationConstants)
    (addr : Address) (pending : List AiOperation) : Except RPCError Unit :=
  let status := statusOf rep addr c
  if status = EntityStatus.banned then
    Except.error { code := BANNED_OR_THROTTLED_ENTITY, message := "banned entity" }
  else if status = EntityStatus.throttled ∧ pending.length = c.ThrottledEntityMempoolCount then
    Except.error { code := BANNED_OR_THROTTLED_ENTITY, message := "throttled entity" }
  else
    Except.ok ()

/-- `Reputation.CheckStatus` (pkg/modules/entities): check the sender,
then the factory when its address is non-zero, then the paymaster when
its address is non-zero, in source order, propagating the first rejection
(the Go code returns early on each error). -/
def Reputation.CheckStatus (rep : ReputationStore) (repConst : ReputationConstants)
    (ctx : AiOpHandlerCtx) : Except RPCError Unit :=
  match checkEntityStatus rep repConst ctx.AiOp.sender ctx.pendingSenderOps with
  | .error e => .error e
  | .ok _ =>
    let factory := ctx.AiOp.GetFactory
    match (if factory ≠ 0 then checkEntityStatus rep repConst factory ctx.pendingFactoryOps
           else .ok ()) with
    | .error e => .error e
    | .ok _ =>
      let paymaster := ctx.AiOp.GetPaymaster
      if paymaster ≠ 0 then checkEntityStatus rep repConst paymaster ctx.pendingPaymasterOps
      else .ok ()

/-! ## Submitters (builder and relay `SendAiOperation`) -/

/-- `modules.BatchHandlerCtx`: the batch-pipeline context (the
`pkg/modules` package is absent from the sources; spec §4.5). `Data` is
modelled by its single observed key, `txn_hash`. -/
structure BatchHandlerCtx where
  Batch : List AiOperation
  PendingRemoval : List (AiOperation × String)
  BaseFee : Nat
  DataTxnHash : Option String
deriving DecidableEq, Repr

/-- Modelled from the spec: `MarkOpIndexForRemoval` of the absent
`pkg/modules` package. Spec §4.5: marking index `i` removes the op from the
batch slice and preserves it (with its reason) on the `PendingRemoval`
list of the `BatchHandlerCtx`. An out-of-range index leaves the context
unchanged. -/
def BatchHandlerCtx.MarkOpIndexForRemoval (ctx : BatchHandlerCtx) (i : Nat)
    (reason : String) : BatchHandlerCtx :=
  match ctx.Batch.get? i with
  | none => ctx
  | some op =>
    { ctx with
      Batch := ctx.Batch.eraseIdx i
      PendingRemoval := ctx.PendingRemoval ++ [(op, reason)] }

/-- Outcome of one `transaction.EstimateHandleOpsGas` call (an external
collaborator, abstracted as an oracle): a transport error, a
`FailedOp{opIndex, reason}` revert, or a successful gas estimate. -/
inductive EstimateResult where
  | failure
  | revert (opIndex : Nat) (reason : String)
  | success (gas : Nat)

/-- The gas-estimation oracle: its answer may depend on the current batch. -/
abbrev EstimateHandleOpsGasFunc := List AiOperation → EstimateResult

/-- How the estimation loop of `SendAiOperation` exits. -/
inductive EstimateLoopStatus where
  | fatal
  | exited (gasLimit : Option Nat)
  | stuck
deriving DecidableEq, Repr

/-- The shared estimation loop of both submitters (src/unnamed/part_000
lines 79-90 and src/unnamed/part_010 lines 80-91): while the batch is
non-empty, call `EstimateHandleOpsGas`; a transport error aborts the
handler, a `FailedOp` revert drops that op index, and a successful
estimate sets the gas limit and breaks. `fuel` bounds the iterations (each
revert with a valid index removes one op, so `Batch.length + 1` suffices);
`stuck` marks the diverging executions an invalid oracle could cause. -/
def estimateLoop (est : EstimateHandleOpsGasFunc) :
    Nat → BatchHandlerCtx → BatchHandlerCtx × EstimateLoopStatus
  | fuel, ctx =>
    if ctx.Batch.isEmpty then (ctx, .exited none)
    else
      match fuel with
      | 0 => (ctx, .stuck)
      | fuel + 1 =>
        match est ctx.Batch with
        | .failure => (ctx, .fatal)
        | .revert i reason => estimateLoop est fuel (ctx.MarkOpIndexForRemoval i reason)
        | .success g => (ctx, .exited (some g))

/-- The basefee projection of the searcher submitter (src/unnamed/part_000
lines 103-108): starting from the context basefee, apply
`mbf ← ⌊mbf × 1125 / 1000⌋ + 1` once per future block. Basefees are
non-negative, so `Nat` division matches `big.Int.Div`. -/
def SearcherProjectBaseFee (baseFee : Nat) (blocksInTheFuture : Nat) : Nat :=
  (List.range blocksInTheFuture).foldl (fun mbf _ => mbf * 1125 / 1000 + 1) baseFee

/-- Errors a `SendAiOperation` batch handler can return, each tagged by
its origin in the source. -/
inductive SubmitError where
  | estimateHandleOpsGas
  | blockNumber
  | handleOps
  | flashbotsBroadcastBundle
  | wait
  | stuck
deriving DecidableEq, Repr

/-- `BuilderClient.SendAiOperation` (src/unnamed/part_000, searcher/MEV
mode), with the external collaborators abstracted as oracles:
`blockNumber` is `eth.BlockNumber` (`none` = transport error),
`handleOpsOk` is whether `transaction.HandleOps` builds the no-send
transaction, `broadcast i` lists the per-builder outcomes
(`true` = `result.Err == nil`) of the `eth_sendBundle` fan-out for future
block `i`, and `waitOk` is whether `transaction.Wait` observes inclusion.
Returns the final context and the error returned by the handler
(`none` = nil). -/
def BuilderClient.SendAiOperation (est : EstimateHandleOpsGasFunc)
    (blockNumber : Option Nat) (handleOpsOk : Bool)
    (blocksInTheFuture : Nat) (broadcast : Nat → List Bool) (waitOk : Bool)
    (ctx₀ : BatchHandlerCtx) : BatchHandlerCtx × Option SubmitError :=
  match estimateLoop est (ctx₀.Batch.length + 1) ctx₀ with
  | (ctx, .stuck) => (ctx, some .stuck)
  | (ctx, .fatal) => (ctx, some .estimateHandleOpsGas)
  | (ctx, .exited _) =>
    if ctx.Batch.isEmpty then (ctx, none)
    else
      match blockNumber with
      | none => (ctx, some .blockNumber)
      | some _ =>
        let _projectedBaseFee := SearcherProjectBaseFee ctx.BaseFee blocksInTheFuture
        if handleOpsOk then
          let shouldFail := (List.range blocksInTheFuture).foldl
            (fun sf i => (broadcast i).foldl (fun sf r => if r then false else sf) sf) true
          if shouldFail then (ctx, some .flashbotsBroadcastBundle)
          else if waitOk then ({ ctx with DataTxnHash := some "txn_hash" }, none)
          else (ctx, some .wait)
        else (ctx, some .handleOps)

/-- `Relayer.SendAiOperation` (src/unnamed/part_010, direct EOA mode):
after the estimation loop, call `transaction.HandleOps` only when the
batch is still non-empty, recording the transaction hash on success. -/
def Relayer.SendAiOperation (est : EstimateHandleOpsGasFunc) (handleOpsOk : Bool)
    (ctx₀ : BatchHandlerCtx) : BatchHandlerCtx × Option SubmitError :=
  match estimateLoop est (ctx₀.Batch.length + 1) ctx₀ with
  | (ctx, .stuck) => (ctx, some .stuck)
  | (ctx, .fatal) => (ctx, some .estimateHandleOpsGas)
  | (ctx, .exited _) =>
    if ctx.Batch.isEmpty then (ctx, none)
    else if handleOpsOk then ({ ctx with DataTxnHash := some "txn_hash" }, none)
    else (ctx, some .handleOps)

/-! ## Trace-based storage-slot validation
(pkg/aimiddleware/simulation/storageslots.go)

Storage slots are hex strings in the Go code, parsed with
`big.Int.SetString(slot, 0)` before comparison; the embedding carries the
parsed numeric value directly. The Go access maps (`Reads`, `Writes`) and
the entity access map are iterated in nondeterministic map order; the
embedding fixes a deterministic order (reads before writes, association
lists in list order), which does not affect whether `Process` rejects. -/

/-- `associatedSlotOffset` (storageslots.go line 20). -/
def associatedSlotOffset : Nat := 128

/-- `accessModeRead` / `accessModeWrite` (storageslots.go lines 18-19). -/
def accessModeRead : String := "read"

def accessModeWrite : String := "write"

/-- Modelled from the spec: the `rip7212precompile` constant is defined in
a source file absent from src/. RIP-7212 places the secp256r1 verifier at
address `0x100`; only its inequality with ordinary contract addresses
matters here. -/
def rip7212precompile : Address := 0x100

/-- `isRIP7212Call` (storageslots.go lines 84-86). -/
def isRIP7212Call (isRIP7212Supported : Bool) (addr : Address) : Bool :=
  isRIP7212Supported && addr = rip7212precompile

/-- `isAssociatedWith` (storageslots.go lines 71-82): the slot value lies
in `[s, s + associatedSlotOffset]` for some slot `s` of the entity. -/
def isAssociatedWith (entitySlots : List Nat) (slot : Nat) : Bool :=
  entitySlots.any (fun s => decide (s ≤ slot ∧ slot ≤ s + associatedSlotOffset))

/-- `addr2KnownEntity` (src/unnamed/part_001 lines 55-64). -/
def addr2KnownEntity (op : AiOperation) (addr : Address) : String :=
  if addr = op.GetFactory then "factory"
  else if addr = op.sender then "account"
  else if addr = op.GetPaymaster then "paymaster"
  else toString addr

/-- One entry of the tracer access map: the slots read and written at one
address (only the map keys are consulted by `Process`). -/
structure AccessInfo where
  Reads : List Nat
  Writes : List Nat
deriving DecidableEq, Repr

/-- The errors `Process` can return, one constructor per `fmt.Errorf`
site in storageslots.go. -/
inductive SimError where
  | noDeployedCode (entityName opcode : String) (addr : Address)
  | forbiddenAccess (entityName mode target : String) (slot : Nat)
  | unstakedAccess (entityName target : String) (slot : Nat)
deriving DecidableEq, Repr

/-- `storageSlotsValidator` (storageslots.go lines 51-69). The alt-mempool
directory's `HasInvalidStorageAccessException(entityName, knownEntity,
slot)` lookup is abstracted as the function field `AltMempools`. -/
structure StorageSlotsValidator where
  Op : AiOperation
  AiMiddleware : Address
  IsRIP7212Supported : Bool
  AltMempools : String → String → Nat → List String
  SenderSlots : List Nat
  FactoryIsStaked : Bool
  EntityName : String
  EntityAddr : Address
  EntityAccessMap : List (Address × AccessInfo)
  EntityContractSizeMap : List (Address × Nat × String)
  EntitySlots : List Nat
  EntityIsStaked : Bool

/-- The per-slot loop of `Process` (storageslots.go lines 134-159),
threading the accumulated `altMempoolIds` and the `mustStakeSlot`
variable. On the forbidden-access branch the Go code returns the ids
collected so far together with the error; only the error is observed
downstream, so the embedding keeps just the error. -/
def processSlotList (v : StorageSlotsValidator) (addr : Address) (mode : String) :
    List Nat → List String × Option Nat → Except SimError (List String × Option Nat)
  | [], acc => .ok acc
  | slot :: rest, (altIds, mustStakeSlot) =>
    if isAssociatedWith v.SenderSlots slot then
      if (0 < v.Op.initCode.length ∧ ¬v.FactoryIsStaked) ∨
          (0 < v.Op.initCode.length ∧ v.FactoryIsStaked ∧ v.EntityAddr ≠ v.Op.sender) then
        processSlotList v addr mode rest (altIds, some slot)
      else
        processSlotList v addr mode rest (altIds, mustStakeSlot)
    else
      let amIds := v.AltMempools v.EntityName (addr2KnownEntity v.Op addr) slot
      if (isAssociatedWith v.EntitySlots slot = true ∨ mode = accessModeRead) ∧ amIds = [] then
        processSlotList v addr mode rest (altIds, some slot)
      else if 0 < amIds.length then
        processSlotList v addr mode rest (altIds ++ amIds, mustStakeSlot)
      else
        .error (.forbiddenAccess v.EntityName mode (addr2KnownEntity v.Op addr) slot)

/-- One iteration of the access-map loop of `Process` (storageslots.go
lines 110-170) for an address that is neither the sender nor the
middleware: process the read slots and the write slots sharing one
`mustStakeSlot` variable, then reject when a slot required stake and the
entity is unstaked. -/
def processAccess (v : StorageSlotsValidator) (addr : Address) (access : AccessInfo)
    (altIds : List String) : Except SimError (List String) :=
  match processSlotList v addr accessModeRead access.Reads (altIds, none) with
  | .error e => .error e
  | .ok acc₁ =>
    match processSlotList v addr accessModeWrite access.Writes acc₁ with
    | .error e => .error e
    | .ok (altIds₂, mustStakeSlot) =>
      match mustStakeSlot, v.EntityIsStaked with
      | some slot, false =>
        .error (.unstakedAccess v.EntityName (addr2KnownEntity v.Op addr) slot)
      | _, _ => .ok altIds₂

/-- The contract-size check of `Process` (storageslots.go lines 99-108):
an entity may not use an opcode on an address with no deployed code unless
it is the sender or the enabled RIP-7212 precompile. -/
def checkContractSizes (v : StorageSlotsValidator) :
    List (Address × Nat × String) → Except SimError Unit
  | [] => .ok ()
  | (ca, size, opcode) :: rest =>
    if ca ≠ v.Op.sender ∧ size = 0 ∧ ¬isRIP7212Call v.IsRIP7212Supported ca then
      .error (.noDeployedCode v.EntityName opcode ca)
    else
      checkContractSizes v rest

/-- The access-map loop of `Process` (storageslots.go lines 110-170),
skipping the sender and the middleware and accumulating alt-mempool ids. -/
def processAccessList (v : StorageSlotsValidator) :
    List (Address × AccessInfo) → List String → Except SimError (List String)
  | [], altIds => .ok altIds
  | (addr, access) :: rest, altIds =>
    if addr = v.Op.sender ∨ addr = v.AiMiddleware then
      processAccessList v rest altIds
    else
      match processAccess v addr access altIds with
      | .error e => .error e
      | .ok altIds' => processAccessList v rest altIds'

/-- `storageSlotsValidator.Process` (storageslots.go lines 88-173). -/
def StorageSlotsValidator.Process (v : StorageSlotsValidator) :
    Except SimError (List String) :=
  match checkContractSizes v v.EntityContractSizeMap with
  | .error e => .error e
  | .ok _ => processAccessList v v.EntityAccessMap []

/-! ## Concrete operations used in the batch gas-cap scenarios.

With empty byte fields, sender 1 and zero fees, the static PVG evaluates
to 45065 (224 packed bytes: 214 zero bytes and 10 non-zero bytes after
sanitization, so `21000 + (214*4 + 10*16) + (25*7 + 22874)`), so a call
gas limit of `5000000 - 45065` (resp. `2000000 - 45065`) makes the op's
batch-gas contribution exactly five (resp. two) million. -/

/-- An op contributing exactly 5,000,000 to the accumulated batch gas. -/
def opC1 : AiOperation :=
  { sender := 1, nonce := 0, initCode := [], callData := []
    callGasLimit := 4954935, verificationGasLimit := 0, preVerificationGas := 0
    maxFeePerGas := 0, maxPriorityFeePerGas := 0, paymasterAndData := [], signature := [] }

/-- An op contributing exactly 2,000,000 to the accumulated batch gas. -/
def opC2 : AiOperation :=
  { opC1 with callGasLimit := 1954935 }

/-! ## Theorems -/

lemma sumContrib_nil : sumContrib [] = 0 := rfl

lemma sumContrib_cons (op : AiOperation) (l : List AiOperation) :
    sumContrib (op :: l) = batchGasContribution op + sumContrib l := by
  simp [sumContrib]

/-- The loop of `MaintainGasLimit` keeps the longest prefix along which
every running sum (seeded with `sum`) stays below the cap. -/
lemma maintainGasLimitGo_spec (max : Int) :
    ∀ (batch : List AiOperation) (sum : Int),
      ∃ k, MaintainGasLimitGo max batch sum = batch.take k ∧ k ≤ batch.length ∧
        (∀ j, 1 ≤ j → j ≤ k → sum + sumContrib (batch.take j) < max) ∧
        (k < batch.length → max ≤ sum + sumContrib (batch.take (k + 1))) := by
  intro batch
  induction batch with
  | nil =>
    intro sum
    refine ⟨0, rfl, Nat.le_refl 0, ?_, ?_⟩
    · intro j h1 h2
      omega
    · intro h
      simp at h
  | cons op rest ih =>
    intro sum
    by_cases hstop : max ≤ sum + batchGasContribution op
    · refine ⟨0, ?_, Nat.zero_le _, fun j h1 h2 => absurd (Nat.le_trans h1 h2) (by omega), ?_⟩
      · simp only [MaintainGasLimitGo, if_pos hstop, List.take_zero]
      · intro _
        simpa [sumContrib_cons, sumContrib_nil] using hstop
    · obtain ⟨k, hk, hkle, hlt, hge⟩ := ih (sum + batchGasContribution op)
      refine ⟨k + 1, ?_, by simpa using Nat.succ_le_succ hkle, ?_, ?_⟩
      · simp only [MaintainGasLimitGo, if_neg hstop, List.take_succ_cons, hk]
      · intro j h1 h2
        match j, h1 with
        | 1, _ =>
          simp only [List.take_succ_cons, List.take_zero, sumContrib_cons, sumContrib_nil]
          omega
        | j + 2, _ =>
          have := hlt (j + 1) (by omega) (by omega)
          simp only [List.take_succ_cons, sumContrib_cons]
          omega
      · intro hklen
        have := hge (by simpa using Nat.lt_of_succ_lt_succ hklen)
        simp only [List.take_succ_cons, sumContrib_cons]
        omega

/-- C1: `MaintainGasLimit` walks the ops in order accumulating
`maxGasAvailable − preVerificationGas + staticPVG` per op and stops once
the running sum reaches the cap: the result is a prefix of the batch
along which every running sum stays strictly below `MaxBatchGasLimit`,
and whose successor (when one exists) reaches it. In particular, with
`MaxBatchGasLimit = 18,000,000` and five ops each contributing 5,000,000,
exactly the first three ops are kept. -/
theorem maintainGasLimit_c1 (max : Int) (batch : List AiOperation) :
    (∃ k, MaintainGasLimit max batch = batch.take k ∧
      (∀ j, 1 ≤ j → j ≤ k → sumContrib (batch.take j) < max) ∧
      (k < batch.length → max ≤ sumContrib (batch.take (k + 1)))) ∧
    (batchGasContribution opC1 = 5000000 ∧
      MaintainGasLimit 18000000 (List.replicate 5 opC1) = List.replicate 3 opC1) := by
  constructor
  · obtain ⟨k, hk, _, hlt, hge⟩ := maintainGasLimitGo_spec max batch 0
    exact ⟨k, hk, fun j h1 h2 => by simpa using hlt j h1 h2, fun h => by simpa using hge h⟩
  · constructor
    · decide
    · decide

/-- Witness for C1 at the concrete five-op batch. -/
theorem maintainGasLimit_c1_witness :
    MaintainGasLimit 18000000 (List.replicate 5 opC1) = List.replicate 3 opC1 :=
  (maintainGasLimit_c1 0 []).2.2

/-- C2 counterexample: ten ops each contributing 2,000,000 do NOT yield a
nine-op batch under `MaintainGasLimit 18000000` — the ninth op makes the
running sum reach exactly 18,000,000, and the loop breaks before keeping
it (`sum.Cmp(maxBatchGasLimit) >= 0`). -/
theorem maintainGasLimit_c2_counterexample :
    batchGasContribution opC2 = 2000000 ∧
    MaintainGasLimit 18000000 (List.replicate 10 opC2) ≠ List.replicate 9 opC2 := by
  constructor
  · decide
  · decide

/-- C2 amended: with `MaxBatchGasLimit = 18,000,000` and ten ops each
contributing 2,000,000, `MaintainGasLimit` keeps exactly the first eight
ops (the ninth reaches the cap exactly and is excluded together with the
tenth). -/
theorem maintainGasLimit_c2_amended :
    batchGasContribution opC2 = 2000000 ∧
    MaintainGasLimit 18000000 (List.replicate 10 opC2) = List.replicate 8 opC2 := by
  constructor
  · decide
  · decide

/-- C4 counterexample: six applications of `bf ← ⌊bf × 1125 / 1000⌋ + 1`
starting from basefee 1000 do not give 2028. -/
theorem searcherProjectBaseFee_c4_counterexample :
    SearcherProjectBaseFee 1000 6 ≠ 2028 := by decide

/-- C4 amended: the searcher submitter computes the projected basefee by
applying `bf ← ⌊bf × 1125 / 1000⌋ + 1` exactly `blocksInTheFuture` times;
with `blocksInTheFuture = 6` and starting basefee 1000 the projection is
2032 (not 2028). -/
theorem searcherProjectBaseFee_c4_amended :
    (∀ bf blocks, SearcherProjectBaseFee bf blocks =
      (fun x => x * 1125 / 1000 + 1)^[blocks] bf) ∧
    SearcherProjectBaseFee 1000 6 = 2032 := by
  constructor
  · intro bf blocks
    induction blocks with
    | zero => rfl
    | succ n ihn =>
      rw [SearcherProjectBaseFee, List.range_succ, List.foldl_append,
        Function.iterate_succ_apply']
      simp only [List.foldl_cons, List.foldl_nil]
      rw [← ihn]
      rfl
  · decide

/-! ### Reputation CheckStatus (C3, C6) -/

/-- Every rejection produced by a single entity check carries the
banned/throttled JSON-RPC code. -/
lemma checkEntityStatus_error_code (rep : ReputationStore) (c : ReputationConstants)
    (addr : Address) (pending : List AiOperation) (e : RPCError)
    (h : checkEntityStatus rep c addr pending = .error e) :
    e.code = BANNED_OR_THROTTLED_ENTITY := by
  unfold checkEntityStatus at h
  dsimp only at h
  split at h
  · cases h
    rfl
  · split at h
    · cases h
      rfl
    · cases h

/-- A passing entity check means the entity is not banned. -/
lemma checkEntityStatus_ok_not_banned (rep : ReputationStore) (c : ReputationConstants)
    (addr : Address) (pending : List AiOperation)
    (h : checkEntityStatus rep c addr pending = .ok ()) :
    statusOf rep addr c ≠ .banned := by
  unfold checkEntityStatus at h
  dsimp only at h
  split at h
  · cases h
  · assumption

/-- A passing entity check means the entity is not both throttled and at
exactly the throttled mempool-count limit. -/
lemma checkEntityStatus_ok_not_throttled (rep : ReputationStore) (c : ReputationConstants)
    (addr : Address) (pending : List AiOperation)
    (h : checkEntityStatus rep c addr pending = .ok ()) :
    ¬(statusOf rep addr c = .throttled ∧ pending.length = c.ThrottledEntityMempoolCount) := by
  unfold checkEntityStatus at h
  dsimp only at h
  split at h
  · cases h
  · split at h
    · cases h
    · assumption

/-- Every rejection produced by `Reputation.CheckStatus` carries the
banned/throttled JSON-RPC code `-32502`. -/
lemma checkStatus_error_code (rep : ReputationStore) (c : ReputationConstants)
    (ctx : AiOpHandlerCtx) (e : RPCError)
    (h : Reputation.CheckStatus rep c ctx = .error e) :
    e.code = BANNED_OR_THROTTLED_ENTITY := by
  unfold Reputation.CheckStatus at h
  dsimp only at h
  split at h
  · rename_i hs
    cases h
    exact checkEntityStatus_error_code _ _ _ _ _ hs
  · split at h
    · rename_i hf
      cases h
      split at hf
      · exact checkEntityStatus_error_code _ _ _ _ _ hf
      · cases hf
    · split at h
      · exact checkEntityStatus_error_code _ _ _ _ _ h
      · cases h

/-- When `Reputation.CheckStatus` accepts, each of the three entity checks
that ran accepted. -/
lemma checkStatus_ok (rep : ReputationStore) (c : ReputationConstants)
    (ctx : AiOpHandlerCtx)
    (h : Reputation.CheckStatus rep c ctx = .ok ()) :
    checkEntityStatus rep c ctx.AiOp.sender ctx.pendingSenderOps = .ok () ∧
    (ctx.AiOp.GetFactory ≠ 0 →
      checkEntityStatus rep c ctx.AiOp.GetFactory ctx.pendingFactoryOps = .ok ()) ∧
    (ctx.AiOp.GetPaymaster ≠ 0 →
      checkEntityStatus rep c ctx.AiOp.GetPaymaster ctx.pendingPaymasterOps = .ok ()) := by
  unfold Reputation.CheckStatus at h
  dsimp only at h
  split at h
  · cases h
  · rename_i hs
    refine ⟨by rw [hs], ?_⟩
    split at h
    · cases h
    · rename_i hf
      refine ⟨?_, ?_⟩
      · intro hfne
        rw [if_pos hfne] at hf
        rw [hf]
      · intro hpne
        rw [if_pos hpne] at h
        rw [h]

/-- C6: whenever the sender, a non-zero factory, or a non-zero paymaster
has derived status banned, `Reputation.CheckStatus` rejects the op with a
`BannedOrThrottled` error (JSON-RPC code `-32502`). -/
theorem checkStatus_c6_banned (rep : ReputationStore) (c : ReputationConstants)
    (ctx : AiOpHandlerCtx)
    (h : statusOf rep ctx.AiOp.sender c = .banned ∨
      (ctx.AiOp.GetFactory ≠ 0 ∧ statusOf rep ctx.AiOp.GetFactory c = .banned) ∨
      (ctx.AiOp.GetPaymaster ≠ 0 ∧ statusOf rep ctx.AiOp.GetPaymaster c = .banned)) :
    ∃ e, Reputation.CheckStatus rep c ctx = .error e ∧
      e.code = BANNED_OR_THROTTLED_ENTITY := by
  cases hres : Reputation.CheckStatus rep c ctx with
  | error e => exact ⟨e, rfl, checkStatus_error_code _ _ _ _ hres⟩
  | ok u =>
    cases u
    obtain ⟨hsend, hfac, hpay⟩ := checkStatus_ok _ _ _ hres
    rcases h with hb | ⟨hfne, hb⟩ | ⟨hpne, hb⟩
    · exact absurd hb (checkEntityStatus_ok_not_banned _ _ _ _ hsend)
    · exact absurd hb (checkEntityStatus_ok_not_banned _ _ _ _ (hfac hfne))
    · exact absurd hb (checkEntityStatus_ok_not_banned _ _ _ _ (hpay hpne))

/-- A reputation store in which address 7 is banned (seen 1000, included
0: `0 + 50 < 100`). -/
def repBanned7 : ReputationStore := fun addr => if addr = 7 then (1000, 0) else (0, 0)

/-- A reputation store in which address 7 is throttled (seen 1000,
included 60: `60 + 10 < 100 ≤ 60 + 50`). -/
def repThrottled7 : ReputationStore := fun addr => if addr = 7 then (1000, 60) else (0, 0)

/-- An op from sender 7 with no factory and no paymaster. -/
def opSender7 : AiOperation := { opC1 with sender := 7 }

/-- Witness for C6: a banned sender is rejected with code `-32502`. -/
theorem checkStatus_c6_banned_witness :
    ∃ e, Reputation.CheckStatus repBanned7 defaultReputationConstants
      { AiOp := opSender7, pendingSenderOps := [], pendingFactoryOps := [],
        pendingPaymasterOps := [] } = .error e ∧
      e.code = BANNED_OR_THROTTLED_ENTITY :=
  checkStatus_c6_banned _ _ _ (Or.inl (by decide))

/-- C3 counterexample: a throttled sender with five pending ops — at least
`ThrottledEntityMempoolCount = 4` — is NOT rejected: the source compares
the pending count with `==`, so any count other than exactly 4 passes. -/
theorem checkStatus_c3_counterexample :
    statusOf repThrottled7 7 defaultReputationConstants = .throttled ∧
    defaultReputationConstants.ThrottledEntityMempoolCount ≤
      (List.replicate 5 opSender7).length ∧
    Reputation.CheckStatus repThrottled7 defaultReputationConstants
      { AiOp := opSender7, pendingSenderOps := List.replicate 5 opSender7,
        pendingFactoryOps := [], pendingPaymasterOps := [] } = .ok () := by
  refine ⟨by decide, by decide, rfl⟩

/-- C3 amended: `Reputation.CheckStatus` rejects with a `BannedOrThrottled`
error (code `-32502`) whenever the sender, a non-zero factory, or a
non-zero paymaster has derived status throttled and its pending-op count
is exactly equal to `ThrottledEntityMempoolCount` (the source compares
with `==`, not `≥`). -/
theorem checkStatus_c3_amended (rep : ReputationStore) (c : ReputationConstants)
    (ctx : AiOpHandlerCtx)
    (h : (statusOf rep ctx.AiOp.sender c = .throttled ∧
        ctx.pendingSenderOps.length = c.ThrottledEntityMempoolCount) ∨
      (ctx.AiOp.GetFactory ≠ 0 ∧ statusOf rep ctx.AiOp.GetFactory c = .throttled ∧
        ctx.pendingFactoryOps.length = c.ThrottledEntityMempoolCount) ∨
      (ctx.AiOp.GetPaymaster ≠ 0 ∧ statusOf rep ctx.AiOp.GetPaymaster c = .throttled ∧
        ctx.pendingPaymasterOps.length = c.ThrottledEntityMempoolCount)) :
    ∃ e, Reputation.CheckStatus rep c ctx = .error e ∧
      e.code = BANNED_OR_THROTTLED_ENTITY := by
  cases hres : Reputation.CheckStatus rep c ctx with
  | error e => exact ⟨e, rfl, checkStatus_error_code _ _ _ _ hres⟩
  | ok u =>
    cases u
    obtain ⟨hsend, hfac, hpay⟩ := checkStatus_ok _ _ _ hres
    rcases h with ⟨hth, hcnt⟩ | ⟨hfne, hth, hcnt⟩ | ⟨hpne, hth, hcnt⟩
    · exact absurd ⟨hth, hcnt⟩ (checkEntityStatus_ok_not_throttled _ _ _ _ hsend)
    · exact absurd ⟨hth, hcnt⟩ (checkEntityStatus_ok_not_throttled _ _ _ _ (hfac hfne))
    · exact absurd ⟨hth, hcnt⟩ (checkEntityStatus_ok_not_throttled _ _ _ _ (hpay hpne))

/-- Witness for the amended C3: a throttled sender with exactly four
pending ops is rejected with code `-32502`. -/
theorem checkStatus_c3_amended_witness :
    ∃ e, Reputation.CheckStatus repThrottled7 defaultReputationConstants
      { AiOp := opSender7, pendingSenderOps := List.replicate 4 opSender7,
        pendingFactoryOps := [], pendingPaymasterOps := [] } = .error e ∧
      e.code = BANNED_OR_THROTTLED_ENTITY :=
  checkStatus_c3_amended _ _ _ (Or.inl ⟨by decide, by decide⟩)

/-! ### Submitters (C5, C10) -/

/-- Marking an op for removal never touches `DataTxnHash` or `BaseFee`,
and only appends to `PendingRemoval`. -/
lemma markOpIndexForRemoval_ctx (ctx : BatchHandlerCtx) (i : Nat) (reason : String) :
    (ctx.MarkOpIndexForRemoval i reason).DataTxnHash = ctx.DataTxnHash ∧
    (ctx.MarkOpIndexForRemoval i reason).BaseFee = ctx.BaseFee ∧
    ∃ l, (ctx.MarkOpIndexForRemoval i reason).PendingRemoval = ctx.PendingRemoval ++ l := by
  unfold BatchHandlerCtx.MarkOpIndexForRemoval
  cases ctx.Batch.get? i with
  | none => exact ⟨rfl, rfl, [], by simp⟩
  | some op => exact ⟨rfl, rfl, [(op, reason)], rfl⟩

/-- The estimation loop only drops ops: `DataTxnHash` and `BaseFee` are
unchanged and `PendingRemoval` is only extended. -/
lemma estimateLoop_ctx (est : EstimateHandleOpsGasFunc) :
    ∀ (fuel : Nat) (ctx : BatchHandlerCtx),
      (estimateLoop est fuel ctx).1.DataTxnHash = ctx.DataTxnHash ∧
      (estimateLoop est fuel ctx).1.BaseFee = ctx.BaseFee ∧
      ∃ l, (estimateLoop est fuel ctx).1.PendingRemoval = ctx.PendingRemoval ++ l := by
  intro fuel
  induction fuel with
  | zero =>
    intro ctx
    rw [estimateLoop]
    split
    · exact ⟨rfl, rfl, [], by simp⟩
    · exact ⟨rfl, rfl, [], by simp⟩
  | succ n ih =>
    intro ctx
    rw [estimateLoop]
    split
    · exact ⟨rfl, rfl, [], by simp⟩
    · cases hest : est ctx.Batch with
      | failure => exact ⟨rfl, rfl, [], by simp⟩
      | revert i reason =>
        simp only [hest]
        obtain ⟨h1, h2, l, h3⟩ := ih (ctx.MarkOpIndexForRemoval i reason)
        obtain ⟨m1, m2, l', m3⟩ := markOpIndexForRemoval_ctx ctx i reason
        exact ⟨h1.trans m1, h2.trans m2, l' ++ l, by rw [h3, m3, List.append_assoc]⟩
      | success g => exact ⟨rfl, rfl, [], by simp⟩

/-- If the estimation loop ends with an empty batch, it exited normally
with the gas limit never set. -/
lemma estimateLoop_empty_exited (est : EstimateHandleOpsGasFunc) :
    ∀ (fuel : Nat) (ctx : BatchHandlerCtx),
      (estimateLoop est fuel ctx).1.Batch = [] →
      (estimateLoop est fuel ctx).2 = .exited none := by
  intro fuel
  induction fuel with
  | zero =>
    intro ctx h
    rw [estimateLoop] at h ⊢
    split at h
    · rename_i hemp
      rw [if_pos hemp]
    · rename_i hemp
      exact absurd (by simpa [List.isEmpty_iff] using h) hemp
  | succ n ih =>
    intro ctx h
    rw [estimateLoop] at h ⊢
    split at h
    · rename_i hemp
      rw [if_pos hemp]
    · rename_i hemp
      rw [if_neg hemp]
      cases hest : est ctx.Batch with
      | failure =>
        simp only [hest] at h
        exact absurd (by simpa [List.isEmpty_iff] using h) hemp
      | revert i reason =>
        simp only [hest] at h ⊢
        exact ih _ h
      | success g =>
        simp only [hest] at h
        exact absurd (by simpa [List.isEmpty_iff] using h) hemp

/-- If the estimation loop exits with a gas limit set, the surviving batch
is non-empty. -/
lemma estimateLoop_success_nonempty (est : EstimateHandleOpsGasFunc) :
    ∀ (fuel : Nat) (ctx : BatchHandlerCtx) (g : Nat),
      (estimateLoop est fuel ctx).2 = .exited (some g) →
      (estimateLoop est fuel ctx).1.Batch ≠ [] := by
  intro fuel
  induction fuel with
  | zero =>
    intro ctx g h
    rw [estimateLoop] at h ⊢
    split at h
    · cases h
    · cases h
  | succ n ih =>
    intro ctx g h
    rw [estimateLoop] at h ⊢
    split at h
    · cases h
    · rename_i hemp
      rw [if_neg hemp]
      cases hest : est ctx.Batch with
      | failure => simp only [hest] at h; cases h
      | revert i reason =>
        simp only [hest] at h ⊢
        exact ih _ _ h
      | success g' =>
        simp only [hest]
        simpa [List.isEmpty_iff] using hemp

/-- The inner builder fold of the broadcast fan-out: starting from `sf`,
the flag stays `true` iff `sf` was `true` and every builder result in the
list errored. -/
lemma broadcastFold_inner (l : List Bool) :
    ∀ sf : Bool, l.foldl (fun sf r => if r then false else sf) sf =
      (sf && l.all (fun r => !r)) := by
  induction l with
  | nil => intro sf; simp
  | cons r rest ih =>
    intro sf
    rw [List.foldl_cons, ih, List.all_cons]
    cases r <;> simp

/-- The whole broadcast fan-out flag: `shouldFail` is `true` iff every
(builder × block) result errored. -/
lemma broadcastFold_outer (broadcast : Nat → List Bool) (l : List Nat) :
    ∀ sf : Bool,
      l.foldl (fun sf i => (broadcast i).foldl (fun sf r => if r then false else sf) sf) sf =
        (sf && l.all (fun i => (broadcast i).all (fun r => !r))) := by
  induction l with
  | nil => intro sf; simp
  | cons i rest ih =>
    intro sf
    rw [List.foldl_cons, broadcastFold_inner, ih, List.all_cons]
    simp [Bool.and_assoc]

/-- C5: for a batch surviving gas estimation (the loop exits with a gas
limit, hence a non-empty batch) and with the block-number fetch and
transaction construction succeeding, the searcher submitter returns the
`FlashbotsBroadcastBundle` error if and only if every one of the
`blocksInTheFuture × builder` `eth_sendBundle` broadcasts errored; a
single successful broadcast rules that error out. -/
theorem builderSendAiOperation_c5 (est : EstimateHandleOpsGasFunc) (bn : Nat)
    (blocksInTheFuture : Nat) (broadcast : Nat → List Bool) (waitOk : Bool)
    (ctx₀ : BatchHandlerCtx) (g : Nat)
    (hE : (estimateLoop est (ctx₀.Batch.length + 1) ctx₀).2 = .exited (some g)) :
    (BuilderClient.SendAiOperation est (some bn) true blocksInTheFuture broadcast waitOk
        ctx₀).2 = some SubmitError.flashbotsBroadcastBundle ↔
      ∀ i, i < blocksInTheFuture → ∀ r ∈ broadcast i, r = false := by
  have hne := estimateLoop_success_nonempty est (ctx₀.Batch.length + 1) ctx₀ g hE
  have heta : estimateLoop est (ctx₀.Batch.length + 1) ctx₀ =
      ((estimateLoop est (ctx₀.Batch.length + 1) ctx₀).1, .exited (some g)) := by
    rw [← hE]
  unfold BuilderClient.SendAiOperation
  rw [heta]
  have hempty : (estimateLoop est (ctx₀.Batch.length + 1) ctx₀).1.Batch.isEmpty = false := by
    simpa [List.isEmpty_iff] using hne
  simp only [hempty, Bool.false_eq_true, if_false, if_true,
    broadcastFold_outer broadcast (List.range blocksInTheFuture) true, Bool.true_and]
  by_cases hall :
      (List.range blocksInTheFuture).all (fun i => (broadcast i).all (fun r => !r)) = true
  · simp only [hall, if_true]
    constructor
    · intro _ i hi r hr
      have h1 : true ∉ broadcast i := by
        have := List.all_eq_true.mp hall i (List.mem_range.mpr hi)
        simpa using this
      cases r
      · rfl
      · exact absurd hr h1
    · intro _
      trivial
  · simp only [hall, if_false]
    constructor
    · intro hcontra
      by_cases hw : waitOk = true
      · rw [if_pos hw] at hcontra
        simp at hcontra
      · rw [if_neg hw] at hcontra
        simp at hcontra
    · intro hfalse
      exfalso
      apply hall
      refine List.all_eq_true.mpr ?_
      intro i hi
      refine List.all_eq_true.mpr ?_
      intro r hr
      have := hfalse i (List.mem_range.mp hi) r hr
      simp [this]

/-- A gas-estimation oracle that always succeeds with estimate 1000. -/
def estSuccess1000 : EstimateHandleOpsGasFunc := fun _ => .success 1000

/-- A batch context holding one op and nothing else. -/
def ctxOneOp : BatchHandlerCtx :=
  { Batch := [opC1], PendingRemoval := [], BaseFee := 1000, DataTxnHash := none }

/-- Witness for C5: with one future block and a single builder whose
broadcast errors, the searcher submitter returns the
`FlashbotsBroadcastBundle` error. -/
theorem builderSendAiOperation_c5_witness :
    (BuilderClient.SendAiOperation estSuccess1000 (some 1) true 1 (fun _ => [false]) true
        ctxOneOp).2 = some SubmitError.flashbotsBroadcastBundle :=
  (builderSendAiOperation_c5 estSuccess1000 1 1 (fun _ => [false]) true ctxOneOp 1000
      (by decide)).mpr
    (by
      intro i _ r hr
      simpa using hr)

/-- A gas-estimation oracle that reverts with `FailedOp` at index 0 on
every call, so every op is eventually dropped. -/
def estRevert0 : EstimateHandleOpsGasFunc := fun _ => .revert 0 "AA25 invalid account nonce"

/-- C10: when iterative gas estimation empties the batch, both the
searcher-mode and the relay `SendAiOperation` return nil without
broadcasting a bundle or sending a transaction (`txn_hash` is never set),
and the only effect on the context is the list of ops marked for
removal. -/
theorem sendAiOperation_c10_emptyBatch (est : EstimateHandleOpsGasFunc)
    (blockNumber : Option Nat) (handleOpsOk : Bool) (blocksInTheFuture : Nat)
    (broadcast : Nat → List Bool) (waitOk : Bool) (ctx₀ : BatchHandlerCtx)
    (h : (estimateLoop est (ctx₀.Batch.length + 1) ctx₀).1.Batch = []) :
    BuilderClient.SendAiOperation est blockNumber handleOpsOk blocksInTheFuture broadcast
        waitOk ctx₀ = ((estimateLoop est (ctx₀.Batch.length + 1) ctx₀).1, none) ∧
    Relayer.SendAiOperation est handleOpsOk ctx₀ =
      ((estimateLoop est (ctx₀.Batch.length + 1) ctx₀).1, none) ∧
    (estimateLoop est (ctx₀.Batch.length + 1) ctx₀).1.DataTxnHash = ctx₀.DataTxnHash ∧
    ∃ removed, (estimateLoop est (ctx₀.Batch.length + 1) ctx₀).1.PendingRemoval =
      ctx₀.PendingRemoval ++ removed := by
  have hst := estimateLoop_empty_exited est (ctx₀.Batch.length + 1) ctx₀ h
  have heta : estimateLoop est (ctx₀.Batch.length + 1) ctx₀ =
      ((estimateLoop est (ctx₀.Batch.length + 1) ctx₀).1, .exited none) := by
    rw [← hst]
  have hempty : (estimateLoop est (ctx₀.Batch.length + 1) ctx₀).1.Batch.isEmpty = true := by
    simp [h]
  obtain ⟨h1, _, l, h3⟩ := estimateLoop_ctx est (ctx₀.Batch.length + 1) ctx₀
  refine ⟨?_, ?_, h1, l, h3⟩
  · unfold BuilderClient.SendAiOperation
    rw [heta]
    simp only [hempty, if_true]
  · unfold Relayer.SendAiOperation
    rw [heta]
    simp only [hempty, if_true]

/-- Witness for C10: the always-reverting estimator drops the single op,
and both submitters return nil with only a pending removal recorded. -/
theorem sendAiOperation_c10_witness :
    BuilderClient.SendAiOperation estRevert0 (some 1) true 6 (fun _ => [true]) true ctxOneOp =
      ((estimateLoop estRevert0 (ctxOneOp.Batch.length + 1) ctxOneOp).1, none) ∧
    Relayer.SendAiOperation estRevert0 true ctxOneOp =
      ((estimateLoop estRevert0 (ctxOneOp.Batch.length + 1) ctxOneOp).1, none) ∧
    (estimateLoop estRevert0 (ctxOneOp.Batch.length + 1) ctxOneOp).1.DataTxnHash =
      ctxOneOp.DataTxnHash ∧
    ∃ removed, (estimateLoop estRevert0 (ctxOneOp.Batch.length + 1) ctxOneOp).1.PendingRemoval =
      ctxOneOp.PendingRemoval ++ removed :=
  sendAiOperation_c10_emptyBatch estRevert0 (some 1) true 6 (fun _ => [true]) true ctxOneOp
    (by decide)

/-! ### Storage-slot validation (C7) -/

/-- An alt-mempool directory with no storage-access exceptions (the
default deployment configuration). -/
def altMempoolsNone : String → String → Nat → List String := fun _ _ _ => []

/-- An unstaked account entity of an op with (non-empty) initCode and an
unstaked factory, reading an address 3 slot that is associated with the
sender. -/
def vC7 : StorageSlotsValidator :=
  { Op := { opC1 with initCode := [1] }
    AiMiddleware := 2
    IsRIP7212Supported := false
    AltMempools := altMempoolsNone
    SenderSlots := [100]
    FactoryIsStaked := false
    EntityName := "account"
    EntityAddr := 1
    EntityAccessMap := [(3, { Reads := [100], Writes := [] })]
    EntityContractSizeMap := []
    EntitySlots := []
    EntityIsStaked := false }

/-- C7 counterexample: a read at a slot associated with the sender is NOT
permitted unconditionally — with initCode present and an unstaked factory,
`Process` marks the slot as requiring stake and rejects the unstaked
entity (storageslots.go lines 136-141 and 162-169). -/
theorem process_c7_counterexample :
    isAssociatedWith vC7.SenderSlots 100 = true ∧
    vC7.Process = .error (SimError.unstakedAccess "account" (toString (3 : Nat)) 100) :=
  ⟨rfl, rfl⟩

/-- When the op has no initCode — or its factory is staked and the entity
under validation is the sender — a slot associated with the sender takes
the unconditional `continue` branch, leaving the accumulator unchanged. -/
lemma processSlotList_assoc (v : StorageSlotsValidator) (addr : Address) (mode : String)
    (hguard : v.Op.initCode = [] ∨ (v.FactoryIsStaked = true ∧ v.EntityAddr = v.Op.sender)) :
    ∀ (slots : List Nat) (acc : List String × Option Nat),
      (∀ s ∈ slots, isAssociatedWith v.SenderSlots s = true) →
      processSlotList v addr mode slots acc = .ok acc := by
  intro slots
  induction slots with
  | nil => intro acc _; rfl
  | cons s rest ih =>
    intro acc hs
    obtain ⟨ids, ms⟩ := acc
    unfold processSlotList
    rw [if_pos (hs s (List.mem_cons_self s rest))]
    have hcond : ¬((0 < v.Op.initCode.length ∧ ¬v.FactoryIsStaked = true) ∨
        (0 < v.Op.initCode.length ∧ v.FactoryIsStaked = true ∧ v.EntityAddr ≠ v.Op.sender)) := by
      rcases hguard with hic | ⟨hfs, hea⟩
      · rw [hic]
        simp
      · simp [hfs, hea]
    rw [if_neg hcond]
    exact ih (ids, ms) (fun s' h => hs s' (List.mem_cons_of_mem s h))

/-- Under the same guard, processing an access entry whose read and write
slots are all associated with the sender never demands stake and keeps the
alt-mempool id accumulator unchanged. -/
lemma processAccess_assoc (v : StorageSlotsValidator) (addr : Address) (access : AccessInfo)
    (ids : List String)
    (hguard : v.Op.initCode = [] ∨ (v.FactoryIsStaked = true ∧ v.EntityAddr = v.Op.sender))
    (hr : ∀ s ∈ access.Reads, isAssociatedWith v.SenderSlots s = true)
    (hw : ∀ s ∈ access.Writes, isAssociatedWith v.SenderSlots s = true) :
    processAccess v addr access ids = .ok ids := by
  unfold processAccess
  rw [processSlotList_assoc v addr accessModeRead hguard access.Reads (ids, none) hr]
  dsimp only
  rw [processSlotList_assoc v addr accessModeWrite hguard access.Writes (ids, none) hw]

/-- A contract-size map in which every entry is the sender, has deployed
code, or is the enabled RIP-7212 precompile produces no error. -/
lemma checkContractSizes_ok (v : StorageSlotsValidator) :
    ∀ (entries : List (Address × Nat × String)),
      (∀ q ∈ entries, q.1 = v.Op.sender ∨ q.2.1 ≠ 0 ∨
        isRIP7212Call v.IsRIP7212Supported q.1 = true) →
      checkContractSizes v entries = .ok () := by
  intro entries
  induction entries with
  | nil => intro _; rfl
  | cons q rest ih =>
    intro h
    obtain ⟨ca, size, opcode⟩ := q
    unfold checkContractSizes
    have hq := h (ca, size, opcode) (List.mem_cons_self _ _)
    rw [if_neg (by tauto)]
    exact ih (fun q' h' => h q' (List.mem_cons_of_mem _ h'))

/-- Under the guard, walking an access map whose out-of-scope addresses
only touch sender-associated slots accepts with the accumulator
unchanged. -/
lemma processAccessList_assoc (v : StorageSlotsValidator)
    (hguard : v.Op.initCode = [] ∨ (v.FactoryIsStaked = true ∧ v.EntityAddr = v.Op.sender)) :
    ∀ (entries : List (Address × AccessInfo)) (ids : List String),
      (∀ p ∈ entries, p.1 ≠ v.Op.sender → p.1 ≠ v.AiMiddleware →
        (∀ s ∈ p.2.Reads, isAssociatedWith v.SenderSlots s = true) ∧
        (∀ s ∈ p.2.Writes, isAssociatedWith v.SenderSlots s = true)) →
      processAccessList v entries ids = .ok ids := by
  intro entries
  induction entries with
  | nil => intro ids _; rfl
  | cons p rest ih =>
    intro ids h
    obtain ⟨addr, access⟩ := p
    unfold processAccessList
    by_cases hskip : addr = v.Op.sender ∨ addr = v.AiMiddleware
    · rw [if_pos hskip]
      exact ih ids (fun p' h' => h p' (List.mem_cons_of_mem _ h'))
    · rw [if_neg hskip]
      push_neg at hskip
      obtain ⟨hr, hw⟩ := h (addr, access) (List.mem_cons_self _ _) hskip.1 hskip.2
      rw [processAccess_assoc v addr access ids hguard hr hw]
      exact ih ids (fun p' h' => h p' (List.mem_cons_of_mem _ h'))

/-- C7 amended: a storage access by an entity to an address other than the
sender and the middleware at a slot associated with the sender is
permitted without any stake requirement only under a side condition the
claim omits: the op has no initCode, or the factory is staked and the
entity under validation is the sender. Under that guard (and with the
contract-size check passing) `Process` accepts with an empty alt-mempool
id list; with initCode present and an unstaked factory (or a
non-sender entity), the access instead requires the entity to be staked,
as the counterexample shows. -/
theorem process_c7_amended (v : StorageSlotsValidator)
    (hguard : v.Op.initCode = [] ∨ (v.FactoryIsStaked = true ∧ v.EntityAddr = v.Op.sender))
    (hsizes : ∀ q ∈ v.EntityContractSizeMap, q.1 = v.Op.sender ∨ q.2.1 ≠ 0 ∨
      isRIP7212Call v.IsRIP7212Supported q.1 = true)
    (haccess : ∀ p ∈ v.EntityAccessMap, p.1 ≠ v.Op.sender → p.1 ≠ v.AiMiddleware →
      (∀ s ∈ p.2.Reads, isAssociatedWith v.SenderSlots s = true) ∧
      (∀ s ∈ p.2.Writes, isAssociatedWith v.SenderSlots s = true)) :
    v.Process = .ok [] := by
  unfold StorageSlotsValidator.Process
  rw [checkContractSizes_ok v v.EntityContractSizeMap hsizes]
  exact processAccessList_assoc v hguard v.EntityAccessMap [] haccess

/-- The counterexample validator with the initCode removed. -/
def vC7ok : StorageSlotsValidator :=
  { vC7 with Op := { vC7.Op with initCode := [] } }

/-- Witness for the amended C7: with no initCode, the same
sender-associated read is accepted even though the entity is unstaked. -/
theorem process_c7_amended_witness : vC7ok.Process = .ok [] :=
  process_c7_amended vC7ok (Or.inl rfl) (by decide) (by decide)

/-! ### Static PVG: monotonicity and sanitization independence (C8, C9) -/

/-- The calldata gas of a single byte with the default overhead
parameters: 4 for a zero byte, 16 otherwise. -/
def byteCost (b : Byte) : Nat := if b = 0 then 4 else 16

/-- Total calldata gas of a byte string with the default parameters. -/
def costSum (l : List Byte) : Nat := (l.map byteCost).sum

lemma costSum_append (a b : List Byte) : costSum (a ++ b) = costSum a + costSum b := by
  simp [costSum]

lemma costSum_replicate_zero (n : Nat) : costSum (List.replicate n 0) = 4 * n := by
  simp [costSum, byteCost, Nat.mul_comm]

lemma byteCost_ge (b : Byte) : 4 ≤ byteCost b := by
  unfold byteCost
  split <;> omega

lemma costSum_ge (l : List Byte) : 4 * l.length ≤ costSum l := by
  induction l with
  | nil => simp [costSum]
  | cons b rest ih =>
    have := byteCost_ge b
    simp only [costSum, List.map_cons, List.sum_cons, List.length_cons] at ih ⊢
    omega

/-- The calldata-cost fold of `CalcCallDataCost` with the default
parameters is the byte-cost sum. -/
lemma foldl_cost (l : List Byte) :
    ∀ acc : Nat, l.foldl (fun cost b => if b = 0 then cost + 4 else cost + 16) acc =
      acc + costSum l := by
  induction l with
  | nil => intro acc; simp [costSum]
  | cons b rest ih =>
    intro acc
    rw [List.foldl_cons, ih]
    have : costSum (b :: rest) = byteCost b + costSum rest := by simp [costSum]
    rw [this]
    unfold byteCost
    by_cases hb : b = 0 <;> simp [hb] <;> omega

lemma calcCallDataCost_eq (op : AiOperation) :
    NewDefaultOverhead.CalcCallDataCost op = costSum op.Pack := by
  show op.Pack.foldl (fun cost b => if b = 0 then cost + 4 else cost + 16) 0 =
    costSum op.Pack
  rw [foldl_cost]
  omega

/-- The ABI-padded length `(n + 31) / 32 * 32`. -/
def paddedLen (n : Nat) : Nat := (n + 31) / 32 * 32

lemma le_paddedLen (n : Nat) : n ≤ paddedLen n := by
  unfold paddedLen
  have h := Nat.div_add_mod (n + 31) 32
  have h2 : (n + 31) % 32 < 32 := Nat.mod_lt _ (by omega)
  omega

lemma paddedLen_mono {n m : Nat} (h : n ≤ m) : paddedLen n ≤ paddedLen m :=
  Nat.mul_le_mul_right 32 (Nat.div_le_div_right (by omega))

lemma length_padTo32 (l : List Byte) : (padTo32 l).length = paddedLen l.length := by
  have := le_paddedLen l.length
  simp only [padTo32, List.length_append, List.length_replicate, paddedLen] at *
  omega

lemma costSum_padTo32 (l : List Byte) :
    costSum (padTo32 l) = costSum l + 4 * (paddedLen l.length - l.length) := by
  simp [padTo32, costSum_append, costSum_replicate_zero, paddedLen]

/-- Extending a byte string never lowers the cost of its padded form: the
padding bytes it displaces cost 4 each, the cheapest a byte can be. -/
lemma costSum_padTo32_mono (l e : List Byte) :
    costSum (padTo32 l) ≤ costSum (padTo32 (l ++ e)) := by
  rw [costSum_padTo32, costSum_padTo32, costSum_append, List.length_append]
  have h1 := le_paddedLen l.length
  have h2 := le_paddedLen (l.length + e.length)
  have h3 := paddedLen_mono (Nat.le_add_right l.length e.length)
  have h4 := costSum_ge e
  omega

lemma length_padTo32_mono (l e : List Byte) :
    (padTo32 l).length ≤ (padTo32 (l ++ e)).length := by
  rw [length_padTo32, length_padTo32, List.length_append]
  exact paddedLen_mono (Nat.le_add_right l.length e.length)

/-- The default static PVG in closed form over the sanitized pack. -/
lemma calcPreVerificationGas_eq (op : AiOperation) :
    NewDefaultOverhead.CalcPreVerificationGas op =
      21000 + costSum (NewDefaultOverhead.sanitize op).Pack +
        (25 * (((NewDefaultOverhead.sanitize op).Pack.length + 31) / 32) + 22874) := by
  unfold Overhead.CalcPreVerificationGas
  dsimp only
  rw [calcCallDataCost_eq]
  rfl

/-- PVG comparison reduces to comparing cost and length of the sanitized
packs. -/
lemma calcPreVerificationGas_mono_of_pack (op1 op2 : AiOperation)
    (hc : costSum (NewDefaultOverhead.sanitize op1).Pack ≤
      costSum (NewDefaultOverhead.sanitize op2).Pack)
    (hl : (NewDefaultOverhead.sanitize op1).Pack.length ≤
      (NewDefaultOverhead.sanitize op2).Pack.length) :
    NewDefaultOverhead.CalcPreVerificationGas op1 ≤
      NewDefaultOverhead.CalcPreVerificationGas op2 := by
  rw [calcPreVerificationGas_eq, calcPreVerificationGas_eq]
  have hdiv : ((NewDefaultOverhead.sanitize op1).Pack.length + 31) / 32 ≤
      ((NewDefaultOverhead.sanitize op2).Pack.length + 31) / 32 :=
    Nat.div_le_div_right (Nat.add_le_add_right hl 31)
  omega

/-- C8: the static PVG (`CalcPreVerificationGas` of the default overhead
with the no-op PVG function) is monotone non-decreasing in each of the
byte-field lengths — extending initCode, callData or paymasterAndData
(holding the other fields fixed) and lengthening the signature (whose
content is sanitized away) can only increase it. -/
theorem calcPreVerificationGas_c8_monotone :
    (∀ (op : AiOperation) (ext : List Byte),
      NewDefaultOverhead.CalcPreVerificationGas op ≤
        NewDefaultOverhead.CalcPreVerificationGas { op with initCode := op.initCode ++ ext }) ∧
    (∀ (op : AiOperation) (ext : List Byte),
      NewDefaultOverhead.CalcPreVerificationGas op ≤
        NewDefaultOverhead.CalcPreVerificationGas { op with callData := op.callData ++ ext }) ∧
    (∀ (op : AiOperation) (ext : List Byte),
      NewDefaultOverhead.CalcPreVerificationGas op ≤
        NewDefaultOverhead.CalcPreVerificationGas
          { op with paymasterAndData := op.paymasterAndData ++ ext }) ∧
    (∀ (op : AiOperation) (sig : List Byte), op.signature.length ≤ sig.length →
      NewDefaultOverhead.CalcPreVerificationGas op ≤
        NewDefaultOverhead.CalcPreVerificationGas { op with signature := sig }) := by
  refine ⟨?_, ?_, ?_, ?_⟩
  · intro op ext
    obtain ⟨s, n, ic, cd, cgl, vgl, pvg, mf, mp, pmd, sig⟩ := op
    apply calcPreVerificationGas_mono_of_pack
    · simp only [Overhead.sanitize, AiOperation.Pack, costSum_append]
      have := costSum_padTo32_mono ic ext
      omega
    · simp only [Overhead.sanitize, AiOperation.Pack, List.length_append]
      have := length_padTo32_mono ic ext
      omega
  · intro op ext
    obtain ⟨s, n, ic, cd, cgl, vgl, pvg, mf, mp, pmd, sig⟩ := op
    apply calcPreVerificationGas_mono_of_pack
    · simp only [Overhead.sanitize, AiOperation.Pack, costSum_append]
      have := costSum_padTo32_mono cd ext
      omega
    · simp only [Overhead.sanitize, AiOperation.Pack, List.length_append]
      have := length_padTo32_mono cd ext
      omega
  · intro op ext
    obtain ⟨s, n, ic, cd, cgl, vgl, pvg, mf, mp, pmd, sig⟩ := op
    apply calcPreVerificationGas_mono_of_pack
    · simp only [Overhead.sanitize, AiOperation.Pack, costSum_append]
      have := costSum_padTo32_mono pmd ext
      omega
    · simp only [Overhead.sanitize, AiOperation.Pack, List.length_append]
      have := length_padTo32_mono pmd ext
      omega
  · intro op sig2 hlen
    obtain ⟨s, n, ic, cd, cgl, vgl, pvg, mf, mp, pmd, sig⟩ := op
    simp only at hlen
    have hrep : List.replicate sig2.length (1 : Byte) =
        List.replicate sig.length 1 ++ List.replicate (sig2.length - sig.length) 1 := by
      rw [← List.replicate_add]
      congr 1
      omega
    apply calcPreVerificationGas_mono_of_pack
    · simp only [Overhead.sanitize, AiOperation.Pack, costSum_append, List.length_replicate,
        hrep]
      have := costSum_padTo32_mono (List.replicate sig.length 1)
        (List.replicate (sig2.length - sig.length) 1)
      omega
    · simp only [Overhead.sanitize, AiOperation.Pack, List.length_append,
        List.length_replicate, hrep]
      have := length_padTo32_mono (List.replicate sig.length 1)
        (List.replicate (sig2.length - sig.length) 1)
      omega

/-- Witness for C8 at concrete ops: appending a byte to the callData and
lengthening the signature both hold at `opC1`. -/
theorem calcPreVerificationGas_c8_monotone_witness :
    NewDefaultOverhead.CalcPreVerificationGas opC1 ≤
      NewDefaultOverhead.CalcPreVerificationGas { opC1 with callData := opC1.callData ++ [7] } ∧
    NewDefaultOverhead.CalcPreVerificationGas opC1 ≤
      NewDefaultOverhead.CalcPreVerificationGas { opC1 with signature := [0, 0] } :=
  ⟨calcPreVerificationGas_c8_monotone.2.1 opC1 [7],
    calcPreVerificationGas_c8_monotone.2.2.2 opC1 [0, 0] (by decide)⟩

/-- C9: the static PVG ignores the op's preVerificationGas,
verificationGasLimit and callGasLimit values and the bytes of its
signature — any two ops equal elsewhere, with signatures of equal length,
get the same value, because sanitization replaces those fields before
costing. -/
theorem calcPreVerificationGas_c9_sanitized (op1 op2 : AiOperation)
    (hs : op1.sender = op2.sender) (hn : op1.nonce = op2.nonce)
    (hic : op1.initCode = op2.initCode) (hcd : op1.callData = op2.callData)
    (hmf : op1.maxFeePerGas = op2.maxFeePerGas)
    (hmp : op1.maxPriorityFeePerGas = op2.maxPriorityFeePerGas)
    (hpm : op1.paymasterAndData = op2.paymasterAndData)
    (hsig : op1.signature.length = op2.signature.length) :
    NewDefaultOverhead.CalcPreVerificationGas op1 =
      NewDefaultOverhead.CalcPreVerificationGas op2 := by
  have hsan : NewDefaultOverhead.sanitize op1 = NewDefaultOverhead.sanitize op2 := by
    cases op1
    cases op2
    simp only at hs hn hic hcd hmf hmp hpm hsig
    simp [Overhead.sanitize, hs, hn, hic, hcd, hmf, hmp, hpm, hsig]
  unfold Overhead.CalcPreVerificationGas
  rw [hsan]

/-- Witness for C9: changing the three gas fields and the signature bytes
(same length) leaves the static PVG unchanged. -/
theorem calcPreVerificationGas_c9_sanitized_witness :
    NewDefaultOverhead.CalcPreVerificationGas { opC1 with signature := [9, 9] } =
      NewDefaultOverhead.CalcPreVerificationGas
        { opC1 with
          callGasLimit := 0
          verificationGasLimit := 5
          preVerificationGas := 7
          signature := [0, 5] } :=
  calcPreVerificationGas_c9_sanitized _ _ rfl rfl rfl rfl rfl rfl rfl rfl

end AiopsBundler
